import Mathlib

/-!
Shallow embedding of the gmailpush library (src/lib/gmailpush.js) and proofs
about its behaviour.  JavaScript objects are modelled as Lean structures;
a property that may be absent (checked with hasOwnProperty or truthiness in
the source) is modelled as an Option field.  External collaborators (the
Gmail transport, the file system, base64 decoding) are modelled as explicit
parameters: the history pages the provider would return, the stored content
of the prevHistoryId file, the per-id message responses, and the decode
function.  Fallible code returns Except.
-/

set_option autoImplicit false

namespace Gmailpush

/-- VALID_HISTORY_TYPES from the source. -/
def VALID_HISTORY_TYPES : List String :=
  ["messageAdded", "messageDeleted", "labelAdded", "labelRemoved"]

/-- Helper for the regex replace in _makeHistoryTypePlural: insert an "s"
after the leftmost occurrence of "label"; none when "label" does not occur. -/
def insertSAfterLabel : List Char → Option (List Char)
  | [] => none
  | c :: cs =>
    if (c :: cs).take 5 = ['l', 'a', 'b', 'e', 'l'] then
      some (['l', 'a', 'b', 'e', 'l', 's'] ++ cs.drop 4)
    else
      (insertSAfterLabel cs).map (fun r => c :: r)

/-- _makeHistoryTypePlural: historyType.replace(regex of message at the start
or label anywhere, first match only, matched text followed by an "s").
E.g. messageAdded becomes messagesAdded and labelAdded becomes labelsAdded.
Strings are handled through their character lists so that the function
computes by kernel reduction. -/
def makeHistoryTypePlural (historyType : String) : String :=
  if ['m', 'e', 's', 's', 'a', 'g', 'e'].isPrefixOf historyType.data then
    String.mk (['m', 'e', 's', 's', 'a', 'g', 'e', 's'] ++ historyType.data.drop 7)
  else
    match insertSAfterLabel historyType.data with
    | some r => String.mk r
    | none => historyType

/-- An element of a labelsAdded or labelsRemoved array: the delta label ids
attached to the affected message. -/
structure LabelDelta where
  labelIds : List String
deriving Repr, DecidableEq

/-- A Gmail history entry.  messages lists the ids of the affected messages;
each of the four change lists is present (some) or absent (none), mirroring
the hasOwnProperty checks of the source. -/
structure HistoryEntry where
  messages : List String
  messagesAdded : Option (List String) := none
  messagesDeleted : Option (List String) := none
  labelsAdded : Option (List LabelDelta) := none
  labelsRemoved : Option (List LabelDelta) := none
deriving Repr, DecidableEq

/-- historyEntry.hasOwnProperty(name) for the four plural change-list
properties of a history entry. -/
def HistoryEntry.hasProp (e : HistoryEntry) (name : String) : Bool :=
  if name = "messagesAdded" then e.messagesAdded.isSome
  else if name = "messagesDeleted" then e.messagesDeleted.isSome
  else if name = "labelsAdded" then e.labelsAdded.isSome
  else if name = "labelsRemoved" then e.labelsRemoved.isSome
  else false

/-- The filter configuration held on this._api after
_setApiPropertiesWithProps has run. -/
structure Api where
  historyTypes : List String := VALID_HISTORY_TYPES
  addedLabelIds : Option (List String) := none
  removedLabelIds : Option (List String) := none
  withLabelIds : Option (List String) := none
  withoutLabelIds : Option (List String) := none
deriving Repr, DecidableEq

/-- First stage of _filterHistory: the for loop building
filteredWithHistoryTypes, appending for each configured historyType the
entries having the corresponding plural property. -/
def filteredWithHistoryTypes (historyTypes : List String)
    (history : List HistoryEntry) : List HistoryEntry :=
  historyTypes.foldl
    (fun acc historyType =>
      acc ++ history.filter (fun e => e.hasProp (makeHistoryTypePlural historyType)))
    []

/-- The labelsAdded.filter / labelsRemoved.filter callback of _filterHistory:
some configured label id occurs in the delta's labelIds. -/
def deltaHasAnyLabel (configuredIds : List String) (d : LabelDelta) : Bool :=
  configuredIds.any (fun id => d.labelIds.contains id)

/-- The predicate of the second stage of _filterHistory: an entry is dropped
when a label-id filter is configured, the entry carries the corresponding
delta list, and no delta element contains a configured id. -/
def labelPassKeep (api : Api) (e : HistoryEntry) : Bool :=
  if (match api.addedLabelIds, e.labelsAdded with
      | some ids, some deltas => (deltas.filter (deltaHasAnyLabel ids)).length == 0
      | _, _ => false : Bool) then false
  else if (match api.removedLabelIds, e.labelsRemoved with
      | some ids, some deltas => (deltas.filter (deltaHasAnyLabel ids)).length == 0
      | _, _ => false : Bool) then false
  else true

/-- Second stage of _filterHistory: filteredWithAddedRemovedLabelIds. -/
def filteredWithAddedRemovedLabelIds (api : Api)
    (entries : List HistoryEntry) : List HistoryEntry :=
  entries.filter (labelPassKeep api)

/-- _filterHistory: the two stages composed. -/
def filterHistory (api : Api) (history : List HistoryEntry) : List HistoryEntry :=
  filteredWithAddedRemovedLabelIds api (filteredWithHistoryTypes api.historyTypes history)

/-- One record of the prevHistoryId file. -/
structure PrevHistory where
  emailAddress : String
  prevHistoryId : Nat
  watchExpiration : Option Nat
deriving Repr, DecidableEq

/-- Error raised by _initialize when prevHistories.find returns undefined:
assigning watchExpiration on undefined throws a TypeError.  (The watch call
itself still completes before the throw, since the assignment's right-hand
side is evaluated first.) -/
inductive InitError
  | typeError
deriving Repr, DecidableEq

/-- The observable outcome of one _initialize cycle: the returned boolean,
the prevHistories collection that is persisted, the startHistoryId recorded
on this._api (fresh branch only), and how many times _refreshWatch ran. -/
structure InitOutcome where
  shouldProceed : Bool
  prevHistories : List PrevHistory
  startHistoryId : Option Nat
  watchCalls : Nat
deriving Repr, DecidableEq

/-- In-place mutation of the record found by prevHistories.find: rewrite the
first record whose emailAddress matches. -/
def updateFirst (l : List PrevHistory) (email : String)
    (f : PrevHistory → PrevHistory) : List PrevHistory :=
  match l with
  | [] => []
  | x :: xs =>
    if x.emailAddress == email then f x :: xs else x :: updateFirst xs email f

/-- The part of _initialize that runs once this._api.prevHistories is
populated: find the account's record (undefined raises the TypeError),
overwrite its watchExpiration with the watch renewal result — this happens
before and regardless of the counter comparison, so it appears in the
persisted collection of both branches — then compare the notification's
counter with the stored one, returning false (stale) or true (fresh,
advancing the stored counter and recording startHistoryId). -/
def initWithHistories (prevHistories : List PrevHistory) (email : String)
    (historyId : Nat) (watchResult : Nat) : Except InitError InitOutcome :=
  match prevHistories.find? (fun ph => ph.emailAddress == email) with
  | none => .error .typeError
  | some prevHistory =>
    if historyId ≤ prevHistory.prevHistoryId then
      .ok { shouldProceed := false,
            prevHistories := updateFirst prevHistories email
              (fun ph => { ph with watchExpiration := some watchResult }),
            startHistoryId := none, watchCalls := 1 }
    else
      .ok { shouldProceed := true,
            prevHistories := updateFirst
              (updateFirst prevHistories email
                (fun ph => { ph with watchExpiration := some watchResult }))
              email (fun ph => { ph with prevHistoryId := historyId }),
            startHistoryId := some prevHistory.prevHistoryId, watchCalls := 1 }

/-- _initialize as a pure state transformer.  store models the
prevHistoryId file: none is the ENOENT case (this._api.prevHistories gets a
record seeded from the notification pushed onto it), some is the parsed
file content.  inMemory is the prior content of this._api.prevHistories
(empty on a fresh instance).  watchResult is the expiration returned by
_refreshWatch. -/
def initCycle (store : Option (List PrevHistory)) (inMemory : List PrevHistory)
    (email : String) (historyId : Nat) (watchResult : Nat) :
    Except InitError InitOutcome :=
  initWithHistories
    (match store with
     | none =>
       inMemory ++ [{ emailAddress := email, prevHistoryId := historyId,
                      watchExpiration := none }]
     | some stored => stored)
    email historyId watchResult

/-- One page of a users.history.list response: history may be absent when
the page carries no entries; a (truthy) nextPageToken means another page
follows. -/
structure HistoryPage where
  history : Option (List HistoryEntry) := none
  nextPageToken : Option String := none
deriving Repr, DecidableEq

/-- _getHistory.  The provider's successive page responses are given as a
list; each recursive call consumes the next response.  Mirrors the source
exactly: when nextPageToken is truthy the function returns
emptyArray.concat(recursive result), so the current page's entries are not
included; when there is no token it returns history or the empty array. -/
def getHistory : List HistoryPage → List HistoryEntry
  | [] => []
  | page :: rest =>
    if (page.nextPageToken.getD "") = "" then page.history.getD []
    else [] ++ getHistory rest

/-- Modelled from the spec: the paginated fetch as section 4.2 and the
source's own doc comment describe it — the entries of every page
concatenated in order.  Used only to exhibit the divergence of getHistory. -/
def getHistorySpec : List HistoryPage → List HistoryEntry
  | [] => []
  | page :: rest =>
    if (page.nextPageToken.getD "") = "" then page.history.getD []
    else page.history.getD [] ++ getHistorySpec rest

/-- Attachment metadata pushed by _parsePayload. -/
structure AttachmentMeta where
  mimeType : String
  filename : String
  attachmentId : String
  size : Nat
deriving Repr, DecidableEq

/-- The body of a payload part: data for text parts, attachmentId and size
for attachment parts. -/
structure Body where
  data : String := ""
  attachmentId : String := ""
  size : Nat := 0
deriving Repr, DecidableEq

/-- A message header, e.g. name From with value user1 at gmail. -/
structure Header where
  name : String
  value : String
deriving Repr, DecidableEq

/-- The nested payload tree of a Gmail message: mimeType, filename, body,
headers and the child parts of a multipart payload. -/
inductive Payload where
  | mk (mimeType : String) (filename : String) (body : Body)
       (headers : List Header) (parts : List Payload)
deriving Repr

/-- mimeType of a payload. -/
def Payload.mimeType : Payload → String
  | .mk m _ _ _ _ => m

/-- filename of a payload. -/
def Payload.filename : Payload → String
  | .mk _ f _ _ _ => f

/-- body of a payload. -/
def Payload.body : Payload → Body
  | .mk _ _ b _ _ => b

/-- headers of a payload. -/
def Payload.headers : Payload → List Header
  | .mk _ _ _ h _ => h

/-- parts of a payload. -/
def Payload.parts : Payload → List Payload
  | .mk _ _ _ _ p => p

/-- A Gmail API message as returned by users.messages.get, or the synthetic
stub built by _getMessageFromId for a Not Found response.  labelIds and
payload are absent on the stub; attachments and notFound exist only on the
stub (normal messages lack both properties, modelled as the defaults). -/
structure Msg where
  id : String
  labelIds : Option (List String) := none
  payload : Option Payload := none
  attachments : List AttachmentMeta := []
  notFound : Bool := false
deriving Repr

/-- _getMessageFromId over an abstract provider: the provider either yields
the message or rejects with an error message string.  A rejection whose
message is Not Found becomes the stub with the requested id, an empty
attachments array and notFound set; any other rejection is rethrown. -/
def getMessageFromId (provider : String → Except String Msg)
    (messageId : String) : Except String Msg :=
  match provider messageId with
  | .ok m => .ok m
  | .error e =>
    if e = "Not Found" then
      .ok { id := messageId, attachments := [], notFound := true }
    else
      .error e

/-- The parsed name and address of one header segment. -/
structure EmailAddress where
  name : String
  address : String
deriving Repr, DecidableEq

/-- The JavaScript regex whitespace class backslash-s. -/
def isSpaceJS (c : Char) : Bool :=
  c == ' ' || c == '\t' || c == '\n' || c == '\r' ||
  c == Char.ofNat 0x0b || c == Char.ofNat 0x0c ||
  c == Char.ofNat 0x00a0 || c == Char.ofNat 0x1680 ||
  (0x2000 ≤ c.toNat && c.toNat ≤ 0x200a) ||
  c == Char.ofNat 0x2028 || c == Char.ofNat 0x2029 ||
  c == Char.ofNat 0x202f || c == Char.ofNat 0x205f ||
  c == Char.ofNat 0x3000 || c == Char.ofNat 0xfeff

/-- The JavaScript regex dot: any character except a line terminator. -/
def isDotJS (c : Char) : Bool :=
  !(c == '\n' || c == '\r' || c == Char.ofNat 0x2028 || c == Char.ofNat 0x2029)

/-- All decompositions of a character list as prefix, one character, suffix,
ordered by increasing prefix length. -/
def splits : List Char → List (List Char × Char × List Char)
  | [] => []
  | c :: cs => ([], c, cs) :: (splits cs).map (fun t => (c :: t.1, t.2.1, t.2.2))

/-- Greedy anchored match of the mandatory group of the address-header regex
(one or more dot characters, an at sign, one or more characters other than a
closing angle bracket, an optional closing angle bracket) at the front of
the list; returns the captured group.  The greedy dot-plus takes the
rightmost at sign that still lets the rest match. -/
def matchAddrCore (l : List Char) : Option (List Char) :=
  let candidates := (splits l).filter (fun t =>
    t.2.1 == '@' && !t.1.isEmpty && t.1.all isDotJS &&
      !(t.2.2.takeWhile (fun c => c != '>')).isEmpty)
  match candidates.getLast? with
  | some t => some (t.1 ++ '@' :: t.2.2.takeWhile (fun c => c != '>'))
  | none => none

/-- The optional leading angle bracket followed by the mandatory group, at
the front of the list: the optional bracket is consumed greedily, with
backtracking to the bracketless reading when the bracketed one fails. -/
def matchAddressPart (l : List Char) : Option (List Char) :=
  match l with
  | '<' :: rest =>
    (match matchAddrCore rest with
     | some g => some g
     | none => matchAddrCore l)
  | _ => matchAddrCore l

/-- Candidate matches of the optional display-name group (any run of dot
characters followed by one whitespace character) at the front of the list,
as capture and remainder pairs, in the greedy engine's order: longest
capture first. -/
def nameSplits (l : List Char) : List (List Char × List Char) :=
  (((splits l).filter (fun t => isSpaceJS t.2.1 && t.1.all isDotJS)).reverse).map
    (fun t => (t.1, t.2.2))

/-- One anchored attempt of the whole address-header regex at the front of
the list: first the display-name candidates from longest to shortest, then
the attempt that skips the optional display-name group. -/
def matchAttempt (l : List Char) : Option (Option (List Char) × List Char) :=
  match (nameSplits l).findSome? (fun t =>
      (matchAddressPart t.2).map (fun g2 => (some t.1, g2))) with
  | some r => some r
  | none => (matchAddressPart l).map (fun g2 => ((none : Option (List Char)), g2))

/-- Unanchored search: try each start position from the left, as
String.match does. -/
def matchHeaderChars : List Char → Option (Option (List Char) × List Char)
  | [] => matchAttempt []
  | c :: cs =>
    match matchAttempt (c :: cs) with
    | some r => some r
    | none => matchHeaderChars cs

/-- emailAddressHeader.match of the address regex: none when the regex does
not match, otherwise the two capture groups (the display name may be
unset). -/
def matchHeader (s : String) : Option (Option String × String) :=
  (matchHeaderChars s.data).map (fun r => (r.1.map String.mk, String.mk r.2))

/-- _parseEmailAddressHeader: on a match, name is the first capture group
when that group is set and non-empty (JavaScript or-else on the possibly
undefined or empty capture), the address otherwise; when the regex does not
match, the raw header is echoed as both name and address. -/
def parseEmailAddressHeader (emailAddressHeader : String) : EmailAddress :=
  match matchHeader emailAddressHeader with
  | some (g1, g2) =>
    { name :=
        match g1 with
        | some n => if n = "" then g2 else n
        | none => g2,
      address := g2 }
  | none =>
    { name := emailAddressHeader, address := emailAddressHeader }

/-- The message object returned by _parseMessage: the copied message fields
plus the derived fields attached by the parser.  The source attaches a
property named from; that keyword is rendered here as fromHeader, and
to, cc, bcc likewise for uniformity. -/
structure ParsedMessage where
  id : String
  labelIds : Option (List String) := none
  payload : Option Payload := none
  notFound : Bool := false
  historyType : String := ""
  fromHeader : Option EmailAddress := none
  toHeader : Option (List EmailAddress) := none
  ccHeader : Option (List EmailAddress) := none
  bccHeader : Option (List EmailAddress) := none
  subject : Option String := none
  date : Option String := none
  bodyText : Option String := none
  bodyHtml : Option String := none
  attachments : List AttachmentMeta := []
deriving Repr

mutual
/-- _parsePayload: walk the document tree updating the parsed message.
decode stands for the external base64 decoding of a body's data. -/
def parsePayload (decode : String → String) :
    Payload → ParsedMessage → ParsedMessage
  | .mk mimeType filename body _ parts, pm =>
    if mimeType.startsWith "multipart/" then
      parsePayloadList decode parts pm
    else if mimeType = "text/html" then
      { pm with bodyHtml := some (decode body.data) }
    else if mimeType = "text/plain" then
      { pm with bodyText := some (decode body.data) }
    else if mimeType.startsWith "image/" || mimeType.startsWith "audio/" ||
        mimeType.startsWith "video/" || mimeType.startsWith "application/" ||
        mimeType.startsWith "font/" || mimeType.startsWith "model/" then
      { pm with attachments := pm.attachments ++
          [{ mimeType := mimeType, filename := filename,
             attachmentId := body.attachmentId, size := body.size }] }
    else pm

/-- The for loop of _parsePayload over the parts of a multipart payload. -/
def parsePayloadList (decode : String → String) :
    List Payload → ParsedMessage → ParsedMessage
  | [], pm => pm
  | p :: ps, pm => parsePayloadList decode ps (parsePayload decode p pm)
end

/-- _parseMessage: copy the message, derive historyType from the history
entry (first matching valid type in the fixed order, empty string when none
match), return at once when the message has no payload, otherwise extract
the From, To, Cc, Bcc, Subject and Date headers, reset attachments to the
empty array and walk the payload tree. -/
def parseMessage (decode : String → String) (message : Msg)
    (historyEntry : HistoryEntry) : ParsedMessage :=
  let historyType :=
    (VALID_HISTORY_TYPES.filter (fun ht =>
      historyEntry.hasProp (makeHistoryTypePlural ht))).headD ""
  let parsedMessage : ParsedMessage :=
    { id := message.id, labelIds := message.labelIds,
      payload := message.payload, notFound := message.notFound,
      historyType := historyType, attachments := message.attachments }
  match message.payload with
  | none => parsedMessage
  | some payload =>
    let hdrs := payload.headers
    let pm := parsedMessage
    let pm :=
      match hdrs.find? (fun h => h.name = "From") with
      | some h => { pm with fromHeader := some (parseEmailAddressHeader h.value) }
      | none => pm
    let pm :=
      match hdrs.find? (fun h => h.name = "To") with
      | some h =>
        { pm with toHeader := some ((h.value.splitOn ", ").map parseEmailAddressHeader) }
      | none => pm
    let pm :=
      match hdrs.find? (fun h => h.name = "Cc") with
      | some h =>
        { pm with ccHeader := some ((h.value.splitOn ", ").map parseEmailAddressHeader) }
      | none => pm
    let pm :=
      match hdrs.find? (fun h => h.name = "Bcc") with
      | some h =>
        { pm with bccHeader := some ((h.value.splitOn ", ").map parseEmailAddressHeader) }
      | none => pm
    let pm :=
      match hdrs.find? (fun h => h.name = "Subject") with
      | some h => { pm with subject := some h.value }
      | none => pm
    let pm :=
      match hdrs.find? (fun h => h.name = "Date") with
      | some h => { pm with date := some h.value }
      | none => pm
    let pm := { pm with attachments := [] }
    parsePayload decode payload pm

/-- The error thrown by _filterMessage when the include and exclude label
sets share a label id. -/
inductive FilterError
  | sharedLabelId
deriving Repr, DecidableEq

/-- _filterMessage: throw when withLabelIds and withoutLabelIds share a
label id; a message without labelIds is rejected when withLabelIds is set;
a message with labelIds is rejected when withLabelIds is set and disjoint
from them, or when withoutLabelIds is set and meets them. -/
def filterMessage (api : Api) (message : ParsedMessage) :
    Except FilterError Bool :=
  if (match api.withLabelIds, api.withoutLabelIds with
      | some withIds, some withoutIds =>
        (withIds.filter (fun l => withoutIds.contains l)).length > 0
      | _, _ => false : Bool) then
    .error .sharedLabelId
  else if message.labelIds.isNone && api.withLabelIds.isSome then
    .ok false
  else if (match message.labelIds, api.withLabelIds with
      | some mls, some withIds =>
        (withIds.filter (fun l => mls.contains l)).length == 0
      | _, _ => false : Bool) then
    .ok false
  else if (match message.labelIds, api.withoutLabelIds with
      | some mls, some withoutIds =>
        (withoutIds.filter (fun l => mls.contains l)).length > 0
      | _, _ => false : Bool) then
    .ok false
  else
    .ok true

/-- messages.filter over the throwing predicate _filterMessage: the
predicate runs left to right and its first throw propagates. -/
def filterMessages (api : Api) : List ParsedMessage →
    Except FilterError (List ParsedMessage)
  | [] => .ok []
  | m :: rest => do
    let keep ← filterMessage api m
    let tail ← filterMessages api rest
    pure (if keep then m :: tail else tail)

/-- The validated options passed to getMessages or
getMessagesWithoutAttachment (notification and token are carried in the
environment instead).  Absent optional keys are none. -/
structure Props where
  historyTypes : Option (List String) := none
  addedLabelIds : Option (List String) := none
  removedLabelIds : Option (List String) := none
  withLabelIds : Option (List String) := none
  withoutLabelIds : Option (List String) := none
deriving Repr, DecidableEq

/-- Errors thrown by _setApiPropertiesWithProps.  typeError is the
uncaught TypeError raised when addedLabelIds or removedLabelIds is given
while historyTypes is undefined: the source reads
props.historyTypes.includes on the raw option. -/
inductive SetApiError
  | invalidHistoryTypes
  | addedLabelIdsRequiresLabelAdded
  | removedLabelIdsRequiresLabelRemoved
  | typeError
deriving Repr, DecidableEq

/-- _setApiPropertiesWithProps: validate historyTypes against the four valid
types, default it to all four when absent, then check that addedLabelIds and
removedLabelIds come with their corresponding history type, reading the raw
historyTypes option. -/
def setApiPropertiesWithProps (props : Props) : Except SetApiError Api := do
  if ((props.historyTypes.getD []).filter (fun ht =>
      !(VALID_HISTORY_TYPES.contains ht))).length > 0 then
    throw SetApiError.invalidHistoryTypes
  let historyTypes := props.historyTypes.getD VALID_HISTORY_TYPES
  if props.addedLabelIds.isSome then
    match props.historyTypes with
    | none => throw SetApiError.typeError
    | some hts =>
      if hts.contains "labelAdded" then pure ()
      else throw SetApiError.addedLabelIdsRequiresLabelAdded
  if props.removedLabelIds.isSome then
    match props.historyTypes with
    | none => throw SetApiError.typeError
    | some hts =>
      if hts.contains "labelRemoved" then pure ()
      else throw SetApiError.removedLabelIdsRequiresLabelRemoved
  pure { historyTypes := historyTypes,
         addedLabelIds := props.addedLabelIds,
         removedLabelIds := props.removedLabelIds,
         withLabelIds := props.withLabelIds,
         withoutLabelIds := props.withoutLabelIds }

/-- The external collaborators of one getMessagesWithoutAttachment call:
the stored prevHistoryId file (none models ENOENT), the prior in-memory
prevHistories, the decoded notification payload (account email and history
id), the watch renewal result, the provider's history pages, the per-id
message responses and the base64 decoder. -/
structure Env where
  store : Option (List PrevHistory)
  inMemory : List PrevHistory := []
  email : String
  historyId : Nat
  watchResult : Nat
  pages : List HistoryPage
  provider : String → Except String Msg
  decode : String → String

/-- The errors a getMessagesWithoutAttachment call can reject with, tagged
by the component that threw. -/
inductive PipelineError
  | apiError (e : SetApiError)
  | cursorError (e : InitError)
  | providerError (e : String)
  | labelError (e : FilterError)
deriving Repr, DecidableEq

/-- Resolve and parse the messages of one history entry, in order. -/
def resolveEntry (env : Env) (entry : HistoryEntry) :
    Except String (List ParsedMessage) :=
  entry.messages.mapM (fun mid => do
    let m ← getMessageFromId env.provider mid
    pure (parseMessage env.decode m entry))

/-- The Promise.all fan-out of getMessagesWithoutAttachment followed by its
reduce: resolve and parse every message of every entry, then flatten in
entry order. -/
def resolveAndParse (env : Env) (entries : List HistoryEntry) :
    Except String (List ParsedMessage) := do
  let nested ← entries.mapM (resolveEntry env)
  pure (nested.foldl (fun acc l => acc ++ l) [])

/-- getMessagesWithoutAttachment as a pure pipeline: validate and set the
api properties, run the reconciliation cycle, and when it says to proceed
fetch and filter the history, resolve, parse and finally filter the
messages.  A stale cycle or an empty filtered history returns the empty
list untouched. -/
def getMessagesWithoutAttachment (props : Props) (env : Env) :
    Except PipelineError (List ParsedMessage) := do
  let api ← (setApiPropertiesWithProps props).mapError PipelineError.apiError
  let init ← (initCycle env.store env.inMemory env.email env.historyId
      env.watchResult).mapError PipelineError.cursorError
  if init.shouldProceed then
    let history := filterHistory api (getHistory env.pages)
    if history.length > 0 then
      let messages ← (resolveAndParse env history).mapError PipelineError.providerError
      (filterMessages api messages).mapError PipelineError.labelError
    else
      pure []
  else
    pure []

/-! Concrete example data used by the theorems below. -/

/-- A history entry recording one added message with id m1. -/
def demoAdded1 : HistoryEntry := { messages := ["m1"], messagesAdded := some ["m1"] }

/-- A history entry recording one added message with id m2. -/
def demoAdded2 : HistoryEntry := { messages := ["m2"], messagesAdded := some ["m2"] }

/-- A two-page history response: the first page carries demoAdded1 and a
continuation token, the second carries demoAdded2 and no token. -/
def twoPages : List HistoryPage :=
  [{ history := some [demoAdded1], nextPageToken := some "tok2" },
   { history := some [demoAdded2], nextPageToken := none }]

/-- Options whose include and exclude label sets share the id INBOX. -/
def overlapProps : Props :=
  { withLabelIds := some ["INBOX"], withoutLabelIds := some ["INBOX"] }

/-- An api configuration whose include and exclude label sets share the id
INBOX. -/
def overlapApi : Api :=
  { withLabelIds := some ["INBOX"], withoutLabelIds := some ["INBOX"] }

/-- An environment delivering a stale notification: the stored counter for
the account already equals the notification's history id, so the cycle
stops before any history is fetched. -/
def staleEnv : Env :=
  { store := some [{ emailAddress := "user1@gmail.com", prevHistoryId := 10,
                     watchExpiration := none }],
    email := "user1@gmail.com", historyId := 10, watchResult := 7,
    pages := [], provider := fun _ => Except.error "Not Found", decode := id }

/-- An environment delivering a fresh notification whose single history
entry resolves to one message labelled INBOX. -/
def busyEnv : Env :=
  { store := some [{ emailAddress := "user1@gmail.com", prevHistoryId := 3,
                     watchExpiration := none }],
    email := "user1@gmail.com", historyId := 5, watchResult := 7,
    pages := [{ history := some [demoAdded1], nextPageToken := none }],
    provider := fun mid => Except.ok { id := mid, labelIds := some ["INBOX"] },
    decode := id }

/-- A parsed message carrying no optional fields. -/
def demoParsed : ParsedMessage := { id := "m1" }

/-- An api configuration requesting the messageAdded and labelAdded kinds
with an added-label-id filter on X. -/
def addedFilterApi : Api :=
  { historyTypes := ["messageAdded", "labelAdded"], addedLabelIds := some ["X"] }

/-- A history entry that survives the kind pass of addedFilterApi but has no
labelsAdded delta. -/
def entryWithoutDelta : HistoryEntry :=
  { messages := ["m"], messagesAdded := some ["m"] }

/-- An api configuration listing the kinds in the order labelAdded then
messageAdded. -/
def reorderedApi : Api := { historyTypes := ["labelAdded", "messageAdded"] }

/-- A history entry of the added kind. -/
def addedKindEntry : HistoryEntry := { messages := ["a"], messagesAdded := some ["a"] }

/-- A history entry of the label-added kind. -/
def labelKindEntry : HistoryEntry :=
  { messages := ["b"], labelsAdded := some [{ labelIds := ["X"] }] }

/-- A cursor record belonging to a different account. -/
def otherUserRecord : PrevHistory :=
  { emailAddress := "user2@gmail.com", prevHistoryId := 3, watchExpiration := none }

/-- The record the resource-absent branch seeds for user1 and then updates
with the watch renewal result 7. -/
def seededRecord : PrevHistory :=
  { emailAddress := "user1@gmail.com", prevHistoryId := 5, watchExpiration := some 7 }

/-- A cursor record for account a holding counter 3. -/
def counterThreeRecord : PrevHistory :=
  { emailAddress := "a", prevHistoryId := 3, watchExpiration := none }

/-- The outcome of the fresh cycle driven by counter 5 and watch result 7
against a store holding counterThreeRecord. -/
def freshOutcome : InitOutcome :=
  { shouldProceed := true,
    prevHistories := [{ emailAddress := "a", prevHistoryId := 5, watchExpiration := some 7 }],
    startHistoryId := some 3, watchCalls := 1 }

/-- A provider that rejects every id with Not Found. -/
def notFoundProvider : String → Except String Msg := fun _ => Except.error "Not Found"

/-- A provider that rejects every id with an unrelated error message. -/
def boomProvider : String → Except String Msg := fun _ => Except.error "boom"

/-- Options giving addedLabelIds while omitting historyTypes. -/
def addedOnlyProps : Props := { addedLabelIds := some ["X"] }

/-! Helper lemmas shared by the theorems. -/

/-- Finding by email address after updateFirst with an email-preserving
update returns the updated record. -/
theorem find?_updateFirst (l : List PrevHistory) (email : String)
    (f : PrevHistory → PrevHistory)
    (hf : ∀ x, (f x).emailAddress = x.emailAddress) :
    (updateFirst l email f).find? (fun ph => ph.emailAddress == email) =
      (l.find? (fun ph => ph.emailAddress == email)).map f := by
  induction l with
  | nil => rfl
  | cons x xs ih =>
    by_cases hx : x.emailAddress == email
    · simp [updateFirst, hx, List.find?, hf]
    · simp [updateFirst, hx, List.find?, ih]

/-- A left fold that appends a function of each element, started from an
accumulator, is the accumulator followed by the flattened images. -/
theorem foldl_append_eq_flatten {α β : Type} (g : α → List β) :
    ∀ (l : List α) (acc : List β),
      l.foldl (fun a x => a ++ g x) acc = acc ++ (l.map g).flatten := by
  intro l
  induction l with
  | nil => simp
  | cons x xs ih => intro acc; simp [ih, List.append_assoc]

/-- A Boolean equality test of a filter's length with zero fails exactly
when some element satisfies the predicate. -/
theorem filter_length_beq_zero {α : Type} (p : α → Bool) (l : List α) :
    ((l.filter p).length == 0) = false ↔ ∃ a ∈ l, p a = true := by
  simp [beq_eq_false_iff_ne, Ne, List.length_eq_zero, List.filter_eq_nil_iff]

/-! Theorems settling the claims. -/

/-- C1: evaluation of the page-fetch at a two-page response.  The claim
says the entries of a page carrying a continuation token and of all
subsequently fetched pages are concatenated; the code instead returns
emptyArray.concat(recursive result), losing every page but the last, so
getHistory yields only the final page's entries while the function's own
documented contract (getHistorySpec) yields both.  The no-entry page
still yields the empty list, as claimed. -/
theorem getHistory_drops_earlier_pages :
    getHistory twoPages = [demoAdded2] ∧
    getHistorySpec twoPages = [demoAdded1, demoAdded2] ∧
    getHistory twoPages ≠ getHistorySpec twoPages ∧
    getHistory [{ history := none, nextPageToken := none }] = [] := by
  decide

/-- C2: when the cursor store resource is present but has no record for the
notified account, _initialize crashes with a TypeError instead of creating
a record and returning stop: prevHistories.find returns undefined and the
watchExpiration assignment throws.  Only the resource-absent branch behaves
as the claim (and the README) state: it seeds exactly one record with the
notification's counter and returns stop. -/
theorem initCycle_crashes_when_record_missing :
    initCycle (some []) [] "user1@gmail.com" 5 7 = .error .typeError ∧
    initCycle (some [otherUserRecord]) [] "user1@gmail.com" 5 7
      = .error .typeError ∧
    initCycle none [] "user1@gmail.com" 5 7 =
      .ok { shouldProceed := false, prevHistories := [seededRecord],
            startHistoryId := none, watchCalls := 1 } :=
  ⟨rfl, rfl, rfl⟩

/-- C4 counterexample: with an added-label-id filter configured and the
entry surviving the kind pass, an entry lacking a labelsAdded delta is
kept, not dropped: the hasOwnProperty test sits inside the dropping
conjunction, so a missing delta field defeats the drop. -/
theorem entry_without_delta_is_kept :
    filterHistory addedFilterApi [entryWithoutDelta] = [entryWithoutDelta] ∧
    filterHistory addedFilterApi [entryWithoutDelta] ≠ [] := by
  decide

/-- C4 amended: an entry passes the label-delta stage of the change filter
exactly when, for each configured label-id filter, if the entry carries the
corresponding delta list then some delta element contains a configured id;
in particular entries lacking the relevant delta field are passed through
unchanged, and an entry carrying the field is dropped exactly when its
delta misses the configured set. -/
theorem labelDelta_pass_characterization (api : Api) (l : List HistoryEntry)
    (e : HistoryEntry) :
    e ∈ filteredWithAddedRemovedLabelIds api l ↔
      (e ∈ l ∧
       (∀ ids deltas, api.addedLabelIds = some ids → e.labelsAdded = some deltas →
          ∃ d ∈ deltas, deltaHasAnyLabel ids d = true) ∧
       (∀ ids deltas, api.removedLabelIds = some ids → e.labelsRemoved = some deltas →
          ∃ d ∈ deltas, deltaHasAnyLabel ids d = true)) := by
  rw [filteredWithAddedRemovedLabelIds, List.mem_filter, labelPassKeep]
  constructor
  · rintro ⟨hmem, hkeep⟩
    refine ⟨hmem, ?_, ?_⟩
    · intro ids deltas ha he
      rw [ha, he] at hkeep
      rcases hz : ((deltas.filter (deltaHasAnyLabel ids)).length == 0) with _ | _
      · exact (filter_length_beq_zero _ _).mp hz
      · simp [hz] at hkeep
    · intro ids deltas ha he
      rw [ha, he] at hkeep
      rcases hz : ((deltas.filter (deltaHasAnyLabel ids)).length == 0) with _ | _
      · exact (filter_length_beq_zero _ _).mp hz
      · rcases hadded : api.addedLabelIds with _ | ids₀ <;>
          rcases hla : e.labelsAdded with _ | deltas₀ <;>
          simp_all
  · rintro ⟨hmem, hadd, hrem⟩
    refine ⟨hmem, ?_⟩
    have haddz : ∀ ids deltas, api.addedLabelIds = some ids →
        e.labelsAdded = some deltas →
        ((deltas.filter (deltaHasAnyLabel ids)).length == 0) = false := by
      intro ids deltas ha he
      exact (filter_length_beq_zero _ _).mpr (hadd ids deltas ha he)
    have hremz : ∀ ids deltas, api.removedLabelIds = some ids →
        e.labelsRemoved = some deltas →
        ((deltas.filter (deltaHasAnyLabel ids)).length == 0) = false := by
      intro ids deltas ha he
      exact (filter_length_beq_zero _ _).mpr (hrem ids deltas ha he)
    rcases ha : api.addedLabelIds with _ | ids₁ <;>
      rcases hla : e.labelsAdded with _ | deltas₁ <;>
      rcases hr : api.removedLabelIds with _ | ids₂ <;>
      rcases hlr : e.labelsRemoved with _ | deltas₂ <;>
      simp_all

/-- C7 counterexample: the kind pass groups kinds in the order they appear
in the configured historyTypes list, not in the fixed
added/deleted/label-added/label-removed order: with historyTypes listing
labelAdded before messageAdded, the label-added entry comes first even
though the log and the fixed order would put the added entry first. -/
theorem kind_pass_order_follows_configuration :
    filterHistory reorderedApi [addedKindEntry, labelKindEntry]
      = [labelKindEntry, addedKindEntry] ∧
    filterHistory reorderedApi [addedKindEntry, labelKindEntry]
      ≠ [addedKindEntry, labelKindEntry] := by
  decide

/-- C7 amended: the kind pass returns the entries grouped by kind in the
order the kinds appear in the configured historyTypes list (the fixed
added, deleted, label-added, label-removed order exactly when the default
list is used), each group being the filter of the log by that kind and so
preserving the relative order of its entries. -/
theorem kind_pass_grouped_by_configured_kinds (historyTypes : List String)
    (history : List HistoryEntry) :
    filteredWithHistoryTypes historyTypes history =
      (historyTypes.map (fun ht =>
        history.filter (fun e => e.hasProp (makeHistoryTypePlural ht)))).flatten := by
  rw [filteredWithHistoryTypes, foldl_append_eq_flatten]
  rfl

/-- C5: the stored counter never decreases.  For a cycle that finds the
account's record holding counter p, the cycle succeeds and the account's
record afterwards holds a counter at least p: unchanged when the
notification's counter does not exceed p (stale), and overwritten with the
notification's counter exactly when it strictly exceeds p (fresh). -/
theorem prevHistoryId_monotone
    (stored inMemory : List PrevHistory) (email : String)
    (historyId watchResult : Nat) (p : PrevHistory)
    (hfind : stored.find? (fun ph => ph.emailAddress == email) = some p) :
    ∃ r q, initCycle (some stored) inMemory email historyId watchResult = .ok r ∧
      r.prevHistories.find? (fun ph => ph.emailAddress == email) = some q ∧
      p.prevHistoryId ≤ q.prevHistoryId ∧
      (historyId ≤ p.prevHistoryId → q.prevHistoryId = p.prevHistoryId) ∧
      (p.prevHistoryId < historyId → q.prevHistoryId = historyId) := by
  have hf1 : ∀ x : PrevHistory,
      (({ x with watchExpiration := some watchResult } : PrevHistory)).emailAddress
        = x.emailAddress := fun _ => rfl
  have hf2 : ∀ x : PrevHistory,
      (({ x with prevHistoryId := historyId } : PrevHistory)).emailAddress
        = x.emailAddress := fun _ => rfl
  by_cases hle : historyId ≤ p.prevHistoryId
  · refine ⟨⟨false,
      updateFirst stored email (fun ph => { ph with watchExpiration := some watchResult }),
      none, 1⟩, { p with watchExpiration := some watchResult }, ?_, ?_, ?_, ?_, ?_⟩
    · simp only [initCycle, initWithHistories, hfind, if_pos hle]
    · rw [find?_updateFirst _ _ _ hf1, hfind]; rfl
    · exact Nat.le_refl _
    · intro _; rfl
    · intro hlt; exact absurd hle (Nat.not_le.mpr hlt)
  · refine ⟨⟨true,
      updateFirst
        (updateFirst stored email (fun ph => { ph with watchExpiration := some watchResult }))
        email (fun ph => { ph with prevHistoryId := historyId }),
      some p.prevHistoryId, 1⟩,
      { p with watchExpiration := some watchResult, prevHistoryId := historyId },
      ?_, ?_, ?_, ?_, ?_⟩
    · simp only [initCycle, initWithHistories, hfind, if_neg hle]
    · rw [find?_updateFirst _ _ _ hf2, find?_updateFirst _ _ _ hf1, hfind]; rfl
    · exact Nat.le_of_lt (Nat.lt_of_not_le hle)
    · intro hc; exact absurd hc hle
    · intro _; rfl

/-- C5 witness: the theorem applied to a store holding counter 3 for the
account and a notification carrying counter 5. -/
theorem prevHistoryId_monotone_witness :
    ∃ r q, initCycle (some [counterThreeRecord]) [] "a" 5 7 = .ok r ∧
      r.prevHistories.find? (fun ph => ph.emailAddress == "a") = some q ∧
      3 ≤ q.prevHistoryId ∧
      (5 ≤ 3 → q.prevHistoryId = 3) ∧
      (3 < 5 → q.prevHistoryId = 5) :=
  prevHistoryId_monotone [counterThreeRecord] [] "a" 5 7 counterThreeRecord rfl

/-- C6: every cycle that returns (either branch) has run the watch renewal
exactly once, and the account's record has its watchExpiration overwritten
with the renewal result in both the stale and the fresh branch. -/
theorem watchExpiration_renewed_every_cycle
    (store : Option (List PrevHistory)) (inMemory : List PrevHistory)
    (email : String) (historyId watchResult : Nat) (r : InitOutcome)
    (h : initCycle store inMemory email historyId watchResult = .ok r) :
    r.watchCalls = 1 ∧
    ∃ q, r.prevHistories.find? (fun ph => ph.emailAddress == email) = some q ∧
      q.watchExpiration = some watchResult := by
  have hf1 : ∀ x : PrevHistory,
      (({ x with watchExpiration := some watchResult } : PrevHistory)).emailAddress
        = x.emailAddress := fun _ => rfl
  have hf2 : ∀ x : PrevHistory,
      (({ x with prevHistoryId := historyId } : PrevHistory)).emailAddress
        = x.emailAddress := fun _ => rfl
  rw [initCycle.eq_def] at h
  generalize (match store with
    | none =>
      inMemory ++ [({ emailAddress := email, prevHistoryId := historyId,
                      watchExpiration := none } : PrevHistory)]
    | some stored => stored) = L at h
  rw [initWithHistories] at h
  split at h
  · exact absurd h (by simp)
  · rename_i p hfind
    split at h
    · cases h
      exact ⟨rfl, { p with watchExpiration := some watchResult },
        by rw [find?_updateFirst _ _ _ hf1, hfind]; rfl, rfl⟩
    · cases h
      exact ⟨rfl, { p with watchExpiration := some watchResult, prevHistoryId := historyId },
        by rw [find?_updateFirst _ _ _ hf2, find?_updateFirst _ _ _ hf1, hfind]; rfl, rfl⟩

/-- C6 witness: the theorem applied to a fresh cycle on a store holding
counter 3 for the account. -/
theorem watchExpiration_renewed_every_cycle_witness :
    freshOutcome.watchCalls = 1 ∧
    ∃ q, freshOutcome.prevHistories.find? (fun ph => ph.emailAddress == "a") = some q ∧
      q.watchExpiration = some 7 :=
  watchExpiration_renewed_every_cycle (some [counterThreeRecord]) [] "a" 5 7
    freshOutcome rfl

/-- C3 counterexample: a call whose include and exclude label sets share
the id INBOX but whose cycle is stale returns the empty list with no error
at all: the overlap check lives inside the per-record filter, which never
runs when no record reaches it, so no configuration error is raised before
I/O or otherwise. -/
theorem overlap_error_skipped_on_stale_cycle :
    getMessagesWithoutAttachment overlapProps staleEnv = .ok [] := rfl

/-- C3 amended: the overlapping-label-sets error is raised by the record
filter when it examines its first record — any run of the filtering stage
on a nonempty record list with overlapping sets throws, before the record's
own labels are consulted — but only then: it fires after history fetch and
message resolution (as the concrete overlapping pipeline run shows), and a
cycle in which no record reaches the record filter raises no error. -/
theorem overlap_error_raised_at_first_record
    (api : Api) (withIds withoutIds : List String) (sharedId : String)
    (hw : api.withLabelIds = some withIds)
    (hwo : api.withoutLabelIds = some withoutIds)
    (hmemw : sharedId ∈ withIds) (hmemwo : sharedId ∈ withoutIds)
    (m : ParsedMessage) (ms : List ParsedMessage) :
    filterMessages api (m :: ms) = .error .sharedLabelId ∧
    getMessagesWithoutAttachment overlapProps busyEnv
      = .error (.labelError .sharedLabelId) := by
  refine ⟨?_, rfl⟩
  have hmemf : sharedId ∈ withIds.filter (fun l => withoutIds.contains l) :=
    List.mem_filter.mpr ⟨hmemw, by simpa using hmemwo⟩
  have hpos : 0 < (withIds.filter (fun l => withoutIds.contains l)).length :=
    List.length_pos.mpr (List.ne_nil_of_mem hmemf)
  have hfm : filterMessage api m = .error .sharedLabelId := by
    rw [filterMessage, hw, hwo]
    simp
    intro hno
    exact absurd hmemwo (hno sharedId hmemw)
  have hexp : filterMessages api (m :: ms) =
      Except.bind (filterMessage api m) (fun keep =>
        Except.bind (filterMessages api ms) (fun tail =>
          pure (if keep then m :: tail else tail))) := rfl
  rw [hexp, hfm]
  rfl

/-- C3 witness: the amended theorem applied to the overlapping
configuration INBOX/INBOX and a one-record list. -/
theorem overlap_error_raised_at_first_record_witness :
    filterMessages overlapApi (demoParsed :: []) = .error .sharedLabelId ∧
    getMessagesWithoutAttachment overlapProps busyEnv
      = .error (.labelError .sharedLabelId) :=
  overlap_error_raised_at_first_record overlapApi ["INBOX"] ["INBOX"] "INBOX"
    rfl rfl (by decide) (by decide) demoParsed []

/-- C8: a provider rejection whose message is Not Found makes the resolver
return the synthetic stub carrying the requested id, an empty attachments
array and the notFound marker, while any other rejection propagates
unchanged. -/
theorem getMessageFromId_notFound_stub
    (provider : String → Except String Msg) (messageId : String) :
    (provider messageId = .error "Not Found" →
      getMessageFromId provider messageId =
        .ok { id := messageId, attachments := [], notFound := true }) ∧
    (∀ e, provider messageId = .error e → e ≠ "Not Found" →
      getMessageFromId provider messageId = .error e) := by
  constructor
  · intro hp
    rw [getMessageFromId, hp]
    simp
  · intro e hp hne
    rw [getMessageFromId, hp]
    simp [hne]

/-- C8 witness: the theorem applied to a Not Found provider and to a
provider failing with an unrelated error. -/
theorem getMessageFromId_notFound_stub_witness :
    getMessageFromId notFoundProvider "abc" =
      .ok { id := "abc", attachments := [], notFound := true } ∧
    getMessageFromId boomProvider "abc" = .error "boom" :=
  ⟨(getMessageFromId_notFound_stub notFoundProvider "abc").1 rfl,
   (getMessageFromId_notFound_stub boomProvider "abc").2 "boom" rfl (by decide)⟩

/-- C9: the documented example with a display name parses into name and
address, the truncated example with no regex match echoes the raw string as
both fields, and in general an unmatched header echoes the raw string while
a match without a display-name capture falls back to the address for the
name. -/
theorem parseEmailAddressHeader_examples_and_fallbacks :
    parseEmailAddressHeader "user1 <user1@gmail.com>" =
      { name := "user1", address := "user1@gmail.com" } ∧
    parseEmailAddressHeader "user2@" = { name := "user2@", address := "user2@" } ∧
    (∀ s, matchHeader s = none →
      parseEmailAddressHeader s = { name := s, address := s }) ∧
    (∀ s g2, matchHeader s = some (none, g2) →
      parseEmailAddressHeader s = { name := g2, address := g2 }) := by
  refine ⟨by decide, by decide, ?_, ?_⟩
  · intro s hm
    rw [parseEmailAddressHeader, hm]
  · intro s g2 hm
    rw [parseEmailAddressHeader, hm]

/-- C9 witness: the no-display-name fallback applied to a bracketed
address. -/
theorem parseEmailAddressHeader_examples_and_fallbacks_witness :
    parseEmailAddressHeader "<a@b>" = { name := "a@b", address := "a@b" } :=
  (parseEmailAddressHeader_examples_and_fallbacks).2.2.2 "<a@b>" "a@b" (by decide)

/-- C10: giving addedLabelIds or removedLabelIds while omitting
historyTypes makes option validation throw (the kind-requirement check
reads the raw historyTypes option, which is undefined, so the call never
reaches the all-four-kinds default), and the retrieval entry point
therefore rejects before any environment interaction: the error is the same
for every store, page list and provider. -/
theorem labelIds_without_historyTypes_throw
    (props : Props) (hht : props.historyTypes = none)
    (hlab : props.addedLabelIds.isSome ∨ props.removedLabelIds.isSome) :
    setApiPropertiesWithProps props = .error .typeError ∧
    ∀ env : Env, getMessagesWithoutAttachment props env
      = .error (.apiError .typeError) := by
  obtain ⟨pht, padd, prem, pwith, pwithout⟩ := props
  subst hht
  have hset : setApiPropertiesWithProps ⟨none, padd, prem, pwith, pwithout⟩
      = .error .typeError := by
    rcases hlab with ha | hr
    · obtain ⟨ids, hid⟩ := Option.isSome_iff_exists.mp ha
      subst hid
      rfl
    · obtain ⟨ids, hid⟩ := Option.isSome_iff_exists.mp hr
      subst hid
      rcases padd with _ | ids₀ <;> rfl
  refine ⟨hset, fun env => ?_⟩
  have hexp : getMessagesWithoutAttachment ⟨none, padd, prem, pwith, pwithout⟩ env =
      Except.bind ((setApiPropertiesWithProps
          ⟨none, padd, prem, pwith, pwithout⟩).mapError PipelineError.apiError)
        (fun api => Except.bind ((initCycle env.store env.inMemory env.email
            env.historyId env.watchResult).mapError PipelineError.cursorError)
          (fun init =>
            if init.shouldProceed then
              let history := filterHistory api (getHistory env.pages)
              if history.length > 0 then
                Except.bind ((resolveAndParse env history).mapError
                    PipelineError.providerError)
                  (fun messages => (filterMessages api messages).mapError
                    PipelineError.labelError)
              else pure []
            else pure [])) := rfl
  rw [hexp, hset]
  rfl

/-- C10 witness: the theorem applied to options carrying only addedLabelIds
and to the concrete busy environment. -/
theorem labelIds_without_historyTypes_throw_witness :
    setApiPropertiesWithProps addedOnlyProps = .error .typeError ∧
    getMessagesWithoutAttachment addedOnlyProps busyEnv
      = .error (.apiError .typeError) :=
  ⟨(labelIds_without_historyTypes_throw addedOnlyProps rfl (Or.inl rfl)).1,
   (labelIds_without_historyTypes_throw addedOnlyProps rfl (Or.inl rfl)).2 busyEnv⟩

end Gmailpush
